import Mathlib

/-!
Verification of the `csp_vite` config-file text-patching toolkit.

The repository's functional surface is a pair of programs (a CLI script
`.vscode/add-csp.js`, here `src/unnamed/part_000`, and a VS Code extension
`extension/src/extension.ts`) that patch a Vite config file by plain
regular-expression text substitution.  We embed the text as `List Char`
(one element per code point) and translate each JavaScript operation used
by the programs:

* `String.prototype.includes`            → `containsSub`
* `String.prototype.trim` / `trimEnd`    → `jsTrim` / `jsTrimEnd`
* `String.prototype.replace(re, str)`    → leftmost-match splice with the
  ECMAScript `GetSubstitution` dollar-pattern expansion (`getSubst`)
* the three regexes of the programs      → hand-derived deterministic
  matchers (each regex's backtracking is locally deterministic, as argued
  at the definitions)

File-system effects (backup copy, target write) are modelled as an ordered
trace of `FsEvent`s produced by pure functions of the file's content and of
the success of the backup copy.
-/

namespace CspVite

set_option maxRecDepth 40000
set_option maxHeartbeats 2000000

/-! ## Character helpers (quotes, braces and friends are built from code
points so that the templates below can be transcribed verbatim) -/

def sqC : Char := Char.ofNat 39
def dqC : Char := Char.ofNat 34
def bqC : Char := Char.ofNat 96
def dollarC : Char := Char.ofNat 36
def ampC : Char := Char.ofNat 38
def ltC : Char := Char.ofNat 60
def colonC : Char := Char.ofNat 58
def semiC : Char := Char.ofNat 59
def commaC : Char := Char.ofNat 44
def spaceC : Char := Char.ofNat 32
def nlC : Char := Char.ofNat 10
def lparenC : Char := Char.ofNat 40
def lbraceC : Char := Char.ofNat 123
def lbrackC : Char := Char.ofNat 91
def rbrackC : Char := Char.ofNat 93

def nlL : List Char := [nlC]

/-- Code points of the ECMAScript `\s` class (WhiteSpace ∪ LineTerminator),
which is also the set removed by `String.prototype.trim`/`trimEnd`. -/
def jsWsCodes : List Nat :=
  [9, 10, 11, 12, 13, 32, 160, 5760, 8192, 8193, 8194, 8195, 8196, 8197,
   8198, 8199, 8200, 8201, 8202, 8232, 8233, 8239, 8287, 12288, 65279]

def jsWhitespace (c : Char) : Bool := jsWsCodes.contains c.toNat

/-- ECMAScript LineTerminator code points (`^` with the `m` flag matches
right after any of these). -/
def isLineTerm (c : Char) : Bool :=
  c.toNat = 10 || c.toNat = 13 || c.toNat = 8232 || c.toNat = 8233

def isQuoteC (c : Char) : Bool := c.toNat = 39 || c.toNat = 34

def isDigitC (c : Char) : Bool := 48 ≤ c.toNat && c.toNat ≤ 57

def dval (c : Char) : Nat := c.toNat - 48

/-! ## Generic scanning helpers -/

/-- Strip `p` from the front of `s` (`none` when `p` is not a prefix). -/
def stripPre : List Char → List Char → Option (List Char)
  | [], s => some s
  | _ :: _, [] => none
  | p :: ps, c :: cs => if p = c then stripPre ps cs else none

/-- Boolean prefix test. -/
def isPre : List Char → List Char → Bool
  | [], _ => true
  | _ :: _, [] => false
  | p :: ps, c :: cs => p = c && isPre ps cs

/-- `String.prototype.includes`: `p` occurs as a contiguous substring of `s`. -/
def containsSub (p : List Char) : List Char → Bool
  | [] => isPre p []
  | c :: cs => isPre p (c :: cs) || containsSub p cs

/-- Number of indices at which `p` occurs as a substring (accumulator form,
so that evaluation is iterative). -/
def countOccAux (p : List Char) : Nat → List Char → Nat
  | acc, [] => if isPre p [] then acc + 1 else acc
  | acc, c :: cs =>
    if isPre p (c :: cs) then countOccAux p (acc + 1) cs else countOccAux p acc cs

def countOcc (p s : List Char) : Nat := countOccAux p 0 s

/-- Index of the first occurrence of `p` as a substring. -/
def idxOf (p : List Char) : List Char → Option Nat
  | [] => if isPre p [] then some 0 else none
  | c :: cs => if isPre p (c :: cs) then some 0 else (idxOf p cs).map (· + 1)

/-- `String.prototype.trimEnd`. -/
def jsTrimEnd (cs : List Char) : List Char :=
  ((cs.reverse).dropWhile jsWhitespace).reverse

/-- `String.prototype.trim`. -/
def jsTrim (cs : List Char) : List Char :=
  jsTrimEnd (cs.dropWhile jsWhitespace)

/-! ## `String.prototype.replace` replacement-string expansion

ECMAScript `GetSubstitution` (the `$$`, `$&`, `` $` ``, `$'`, `$n`, `$nn`,
`$<` table).  `caps` is the list of captured groups of the single match
(every regex in this repository has at most one group and no named groups,
so `$<` passes through literally).  A `$n`/`$nn` whose number exceeds the
group count is kept literally. -/

def capAt (caps : List (List Char)) (n : Nat) : List Char :=
  (caps.get? (n - 1)).getD []

def getSubstAux (matched before after : List Char) (caps : List (List Char)) :
    Nat → List Char → List Char
  | 0, l => l
  | _ + 1, [] => []
  | fuel + 1, c :: rest =>
    if c = dollarC then
      match rest with
      | [] => [dollarC]
      | d :: rest2 =>
        if d = dollarC then dollarC :: getSubstAux matched before after caps fuel rest2
        else if d = ampC then matched ++ getSubstAux matched before after caps fuel rest2
        else if d = bqC then before ++ getSubstAux matched before after caps fuel rest2
        else if d = sqC then after ++ getSubstAux matched before after caps fuel rest2
        else if isDigitC d then
          match rest2 with
          | e :: rest3 =>
            if isDigitC e then
              if 1 ≤ 10 * dval d + dval e ∧ 10 * dval d + dval e ≤ caps.length then
                capAt caps (10 * dval d + dval e) ++ getSubstAux matched before after caps fuel rest3
              else if 1 ≤ dval d ∧ dval d ≤ caps.length then
                capAt caps (dval d) ++ e :: getSubstAux matched before after caps fuel rest3
              else dollarC :: d :: e :: getSubstAux matched before after caps fuel rest3
            else
              if 1 ≤ dval d ∧ dval d ≤ caps.length then
                capAt caps (dval d) ++ getSubstAux matched before after caps fuel rest2
              else dollarC :: d :: getSubstAux matched before after caps fuel rest2
          | [] =>
            if 1 ≤ dval d ∧ dval d ≤ caps.length then capAt caps (dval d)
            else [dollarC, d]
        else dollarC :: d :: getSubstAux matched before after caps fuel rest2
    else c :: getSubstAux matched before after caps fuel rest

/-- Expansion of the whole replacement string.  (`getSubstAux` recurses on a
fuel argument only to make the recursion structural; every step consumes at
least one character, so `fuel = repl.length` never runs out.  A `$` followed
by a character with no table entry — including `$<`, since no regex here has
named groups — is kept literally.) -/
def getSubst (matched before after : List Char) (caps : List (List Char))
    (repl : List Char) : List Char :=
  getSubstAux matched before after caps repl.length repl

/-! ## The import-run regex

`/^(import[\s\S]*?from\s+['"][^'"]+['"];?\s*)+/m` (identical in both
programs).  One iteration of the group (`matchImportOnce`) is: literal
`import`, a lazy any-character run, literal `from`, one-or-more whitespace,
a quote, one-or-more non-quote characters, a quote, an optional `;`, then
greedy whitespace.  Every quantifier here is deterministic under
backtracking: the greedy `\s+`/`\s*` runs are each followed by a
non-whitespace requirement (or by nothing), `[^'"]+` is followed by a quote
requirement, and the lazy run takes the least number of characters after
which the (deterministic) remainder matches.  The outer greedy `(...)+`
repeats while an iteration matches; nothing follows it in the pattern, so
no backtracking into earlier iterations ever occurs. -/

def importLit : List Char := ("import").toList
def fromLit : List Char := ("from").toList

/-- Optionally consume one `;`. -/
def semiOpt : List Char → List Char
  | [] => []
  | c :: cs => if c = semiC then cs else c :: cs

/-- Match `from\s+['"][^'"]+['"];?\s*` at the head; returns the rest. -/
def fromRest (cs : List Char) : Option (List Char) :=
  match stripPre fromLit cs with
  | none => none
  | some cs1 =>
    match cs1 with
    | [] => none
    | w :: _ =>
      if jsWhitespace w then
        match cs1.dropWhile jsWhitespace with
        | [] => none
        | q1 :: cs2 =>
          if isQuoteC q1 then
            match cs2 with
            | [] => none
            | h :: _ =>
              if isQuoteC h then none
              else
                match cs2.dropWhile (fun c => !(isQuoteC c)) with
                | [] => none
                | q2 :: cs3 =>
                  if isQuoteC q2 then some ((semiOpt cs3).dropWhile jsWhitespace)
                  else none
          else none
      else none

/-- The lazy `[\s\S]*?` before `from...`: least drop after which `fromRest`
matches. -/
def lazyFrom : List Char → Option (List Char)
  | [] => none
  | c :: cs =>
    match fromRest (c :: cs) with
    | some r => some r
    | none => lazyFrom cs

/-- One iteration of the parenthesised group. -/
def matchImportOnce (cs : List Char) : Option (List Char) :=
  match stripPre importLit cs with
  | none => none
  | some cs1 => lazyFrom cs1

/-- Greedily repeat further iterations (each iteration consumes at least the
six characters of `import`, so `fuel = length` never runs out first). -/
def importRunAux : Nat → List Char → List Char
  | 0, cs => cs
  | n + 1, cs =>
    match matchImportOnce cs with
    | none => cs
    | some r => importRunAux n r

/-- The whole `(...)+` at the current position; returns the rest. -/
def matchImportRun (cs : List Char) : Option (List Char) :=
  match matchImportOnce cs with
  | none => none
  | some r => some (importRunAux r.length r)

/-- Leftmost match of the import-run regex: `String.prototype.match` scans
positions left to right; the `^` (with `m`) holds at position 0 and right
after a LineTerminator.  Returns `(index, length)` of the first match.
(In the no-match step the index is destructured into `0`/`j + 1` only so
that it stays in numeral form while the scan evaluates; both arms increment
it by one.) -/
def importScanAux : List Char → Nat → Bool → Option (Nat × Nat)
  | [], _, _ => none
  | c :: cs, i, atStart =>
    match (if atStart then matchImportRun (c :: cs) else none), i with
    | some r, _ => some (i, (c :: cs).length - r.length)
    | none, 0 => importScanAux cs 1 (isLineTerm c)
    | none, j + 1 => importScanAux cs (j + 2) (isLineTerm c)

def importFirstMatch (content : List Char) : Option (Nat × Nat) :=
  importScanAux content 0 true

/-! ## The defineConfig regex

`/export\s+default\s+defineConfig\s*\(\s*\{/` — no groups, no anchors; each
greedy whitespace run is followed by a non-whitespace literal, so the
matcher is deterministic. -/

def exportLit : List Char := ("export").toList
def defaultLit : List Char := ("default").toList
def defineConfigLit : List Char := ("defineConfig").toList

/-- `\s+` at the head; returns the rest. -/
def wsPlus (cs : List Char) : Option (List Char) :=
  match cs with
  | [] => none
  | c :: _ => if jsWhitespace c then some (cs.dropWhile jsWhitespace) else none

def matchDefineCfg (cs : List Char) : Option (List Char) :=
  (stripPre exportLit cs).bind fun a =>
  (wsPlus a).bind fun b =>
  (stripPre defaultLit b).bind fun c =>
  (wsPlus c).bind fun d =>
  (stripPre defineConfigLit d).bind fun e =>
  (stripPre [lparenC] (e.dropWhile jsWhitespace)).bind fun f =>
  stripPre [lbraceC] (f.dropWhile jsWhitespace)

/-- Generic leftmost-match scanner shared by the defineConfig and the
directive regexes (both unanchored: `String.prototype.match`/`replace` try
every position left to right).  `m` matches one position, returning the
captured data and the rest of the text after the match; the scanner returns
`(index, length, captured)` of the first match.  (In the no-match step the
index is destructured into `0`/`j + 1` only so that it stays in numeral
form while the scan evaluates; both arms increment it by one.) -/
def scanFirst {α : Type} (m : List Char → Option (α × List Char)) :
    List Char → Nat → Option (Nat × Nat × α)
  | [], _ => none
  | c :: cs, i =>
    match m (c :: cs), i with
    | some (a, r), _ => some (i, (c :: cs).length - r.length, a)
    | none, 0 => scanFirst m cs 1
    | none, j + 1 => scanFirst m cs (j + 2)

/-- Generic first-match splice, realising `text.replace(re, repl)`: scan
for the first match and concatenate the prefix, the expanded replacement
(`build matched before captured rest`), and the rest of the text.  `none`
when there is no match.  The prefix is accumulated in reversed form;
`spliceFirst_spec` below proves this function equal to the index-based
take/drop description of the same splice. -/
def spliceFirst {α : Type} (m : List Char → Option (α × List Char))
    (build : List Char → List Char → α → List Char → List Char) :
    List Char → List Char → Option (List Char)
  | _, [] => none
  | revPre, c :: cs =>
    match m (c :: cs) with
    | some (a, r) =>
      some (revPre.reverse
        ++ build ((c :: cs).take ((c :: cs).length - r.length)) revPre.reverse a r
        ++ r)
    | none => spliceFirst m build (c :: revPre) cs

/-- The defineConfig regex as a position matcher (no capture groups). -/
def mCfg (s : List Char) : Option (Unit × List Char) :=
  (matchDefineCfg s).map (fun r => ((), r))

/-- Leftmost match `(index, length)` of the defineConfig regex. -/
def findDefineCfg (content : List Char) : Option (Nat × Nat) :=
  (scanFirst mCfg content 0).map (fun x => (x.1, x.2.1))

/-! ## The directive-array regex

``new RegExp(`'${directive}':\\s*\\[([^\\]]*)\\]`, 's')`` — literal quoted
directive name and colon, greedy whitespace (followed by the literal `[`),
literal `[`, a greedy run of non-`]` characters (the single capture group,
followed by the literal `]`), literal `]`.  The `s` flag only affects `.`,
which does not occur.  Deterministic for the same reasons as above.  The six
directive names passed by the programs contain no regex metacharacters, so
the interpolated name matches literally. -/

def matchDirectiveAt (dir : List Char) (cs : List Char) :
    Option (List Char × List Char) :=
  (stripPre (sqC :: (dir ++ [sqC, colonC])) cs).bind fun a =>
  (stripPre [lbrackC] (a.dropWhile jsWhitespace)).bind fun b =>
  (stripPre [rbrackC] (b.dropWhile (fun c => !(c = rbrackC)))).map fun r =>
    (b.takeWhile (fun c => !(c = rbrackC)), r)

/-- Leftmost match of the directive-array regex:
`(index, length, captured array content)`. -/
def findDirective (dir content : List Char) : Option (Nat × Nat × List Char) :=
  scanFirst (matchDirectiveAt dir) content 0

/-! ## The fixed text templates

Transcribed verbatim from the two programs.  `cspPolicyCode` and
`viteConfigServer` are the contents of the template literals
`CSP_POLICY_CODE` and `VITE_CONFIG_SERVER` of the CLI script;
`extPolicyTemplate` and `extServerConfig` are `CSP_POLICY_TEMPLATE` and
`SERVER_CONFIG` of the extension.  Single quotes, backticks and braces are
assembled from code points. -/

def nlS : String := "\n"
def sqS : String := String.mk [sqC]
def bqS : String := String.mk [bqC]

/-- CSP_POLICY_CODE of the CLI script (the template-literal content, verbatim: a leading and a trailing newline around lines 37-107 of the script) -/
def cspPolicyCode : String :=
  String.intercalate nlS [
    "",
    "// ========\x3d===============\x3d===============\x3d===============\x3d===================",
    "// CONTENT SECURITY POLICY (CSP) CONFIGURATION",
    "// ========\x3d===============\x3d===============\x3d===============\x3d===================",
    "//",
    "// Debugging CSP errors:",
    "// 1. Open Chrome DevTools → Console",
    "// 2. Look for \x22Refused to load\x22 or \x22violates Content Security Policy\x22",
    "// 3. The error tells you which directive blocked the resource",
    "// 4. Add the source to the appropriate array below",
    "//",
    "// ========\x3d===============\x3d===============\x3d===============\x3d===================",
    "",
    "const CSP_POLICY = \x7b",
    "  // default-src: Fallback for any directive not explicitly set",
    "  // " ++ sqS ++ "self" ++ sqS ++ " = Same origin, localhost:* = Any local port, ws: = WebSocket for HMR",
    "  " ++ sqS ++ "default-src" ++ sqS ++ ": [\x22" ++ sqS ++ "self" ++ sqS ++ "\x22, " ++ sqS ++ "http://localhost:*" ++ sqS ++ ", " ++ sqS ++ "ws://localhost:*" ++ sqS ++ "],",
    "",
    "  // script-src: Controls which scripts can execute",
    "  // Add new CDNs here when you get script-related CSP errors",
    "  " ++ sqS ++ "script-src" ++ sqS ++ ": [",
    "    \x22" ++ sqS ++ "self" ++ sqS ++ "\x22,",
    "    \x22" ++ sqS ++ "unsafe-inline" ++ sqS ++ "\x22,    // Required for inline scripts, Tailwind JIT",
    "    \x22" ++ sqS ++ "unsafe-eval" ++ sqS ++ "\x22,      // Required for some bundlers and libraries",
    "    " ++ sqS ++ "http://localhost:*" ++ sqS ++ ", // Vite dev server",
    "    " ++ sqS ++ "https://cdn.tailwindcss.com" ++ sqS ++ ",  // Tailwind CSS CDN",
    "    " ++ sqS ++ "https://cdn.jsdelivr.net" ++ sqS ++ ",     // Popular CDN for npm packages",
    "  ],",
    "",
    "  // style-src: Controls which stylesheets can load",
    "  " ++ sqS ++ "style-src" ++ sqS ++ ": [",
    "    \x22" ++ sqS ++ "self" ++ sqS ++ "\x22,",
    "    \x22" ++ sqS ++ "unsafe-inline" ++ sqS ++ "\x22,               // Required for Tailwind, inline styles",
    "    " ++ sqS ++ "https://fonts.googleapis.com" ++ sqS ++ ",  // Google Fonts CSS",
    "  ],",
    "",
    "  // font-src: Controls which fonts can load",
    "  " ++ sqS ++ "font-src" ++ sqS ++ ": [",
    "    \x22" ++ sqS ++ "self" ++ sqS ++ "\x22,",
    "    " ++ sqS ++ "https://fonts.gstatic.com" ++ sqS ++ ",  // Google Fonts files",
    "    " ++ sqS ++ "data:" ++ sqS ++ ",                       // Inline base64 fonts",
    "  ],",
    "",
    "  // img-src: Controls which images can load",
    "  " ++ sqS ++ "img-src" ++ sqS ++ ": [",
    "    \x22" ++ sqS ++ "self" ++ sqS ++ "\x22,",
    "    " ++ sqS ++ "data:" ++ sqS ++ ",              // Base64 images (favicon, inline SVGs)",
    "    " ++ sqS ++ "blob:" ++ sqS ++ ",              // Generated images, canvas.toBlob()",
    "    " ++ sqS ++ "https:" ++ sqS ++ ",             // Any external HTTPS images",
    "    " ++ sqS ++ "http://localhost:*" ++ sqS ++ ", // Local dev server images",
    "  ],",
    "",
    "  // connect-src: Controls fetch(), XHR, WebSocket connections",
    "  // THIS IS WHERE YOU ADD API ENDPOINTS!",
    "  " ++ sqS ++ "connect-src" ++ sqS ++ ": [",
    "    \x22" ++ sqS ++ "self" ++ sqS ++ "\x22,",
    "    " ++ sqS ++ "http://localhost:*" ++ sqS ++ ",                        // Local API servers",
    "    " ++ sqS ++ "ws://localhost:*" ++ sqS ++ ",                          // Vite HMR WebSocket",
    "  ],",
    "",
    "  // worker-src: Controls Web Workers and Service Workers",
    "  " ++ sqS ++ "worker-src" ++ sqS ++ ": [",
    "    \x22" ++ sqS ++ "self" ++ sqS ++ "\x22,",
    "    " ++ sqS ++ "blob:" ++ sqS ++ ",  // Required for libraries like gif.js",
    "  ],",
    "\x7d;",
    "",
    "// Converts the CSP_POLICY object into a valid CSP header string",
    "const buildCSPString = (policy: Record<string, string[]>): string =>",
    "  Object.entries(policy)",
    "    .map(([directive, sources]) => " ++ bqS ++ "$\x7bdirective\x7d $\x7bsources.join(" ++ sqS ++ " " ++ sqS ++ ")\x7d" ++ bqS ++ ")",
    "    .join(" ++ sqS ++ "; " ++ sqS ++ ");",
    ""
  ]

/-- VITE_CONFIG_SERVER of the CLI script (leading newline, no trailing newline) -/
def viteConfigServer : String :=
  String.intercalate nlS [
    "",
    "  server: \x7b",
    "    headers: \x7b",
    "      " ++ sqS ++ "Content-Security-Policy" ++ sqS ++ ": buildCSPString(CSP_POLICY),",
    "    \x7d,",
    "  \x7d,"
  ]

/-- CSP_POLICY_TEMPLATE of the VS Code extension -/
def extPolicyTemplate : String :=
  String.intercalate nlS [
    "",
    "// ========\x3d===============\x3d===============\x3d===============\x3d===================",
    "// CONTENT SECURITY POLICY (CSP) CONFIGURATION",
    "// ========\x3d===============\x3d===============\x3d===============\x3d===================",
    "//",
    "// Debugging CSP errors:",
    "// 1. Open Chrome DevTools → Console",
    "// 2. Look for \x22Refused to load\x22 or \x22violates Content Security Policy\x22",
    "// 3. The error tells you which directive blocked the resource",
    "// 4. Add the source to the appropriate array below",
    "//",
    "// ========\x3d===============\x3d===============\x3d===============\x3d===================",
    "",
    "const CSP_POLICY = \x7b",
    "  " ++ sqS ++ "default-src" ++ sqS ++ ": [\x22" ++ sqS ++ "self" ++ sqS ++ "\x22, " ++ sqS ++ "http://localhost:*" ++ sqS ++ ", " ++ sqS ++ "ws://localhost:*" ++ sqS ++ "],",
    "  " ++ sqS ++ "script-src" ++ sqS ++ ": [\x22" ++ sqS ++ "self" ++ sqS ++ "\x22, \x22" ++ sqS ++ "unsafe-inline" ++ sqS ++ "\x22, \x22" ++ sqS ++ "unsafe-eval" ++ sqS ++ "\x22, " ++ sqS ++ "http://localhost:*" ++ sqS ++ ", " ++ sqS ++ "https://cdn.tailwindcss.com" ++ sqS ++ "],",
    "  " ++ sqS ++ "style-src" ++ sqS ++ ": [\x22" ++ sqS ++ "self" ++ sqS ++ "\x22, \x22" ++ sqS ++ "unsafe-inline" ++ sqS ++ "\x22, " ++ sqS ++ "https://fonts.googleapis.com" ++ sqS ++ "],",
    "  " ++ sqS ++ "font-src" ++ sqS ++ ": [\x22" ++ sqS ++ "self" ++ sqS ++ "\x22, " ++ sqS ++ "https://fonts.gstatic.com" ++ sqS ++ ", " ++ sqS ++ "data:" ++ sqS ++ "],",
    "  " ++ sqS ++ "img-src" ++ sqS ++ ": [\x22" ++ sqS ++ "self" ++ sqS ++ "\x22, " ++ sqS ++ "data:" ++ sqS ++ ", " ++ sqS ++ "blob:" ++ sqS ++ ", " ++ sqS ++ "https:" ++ sqS ++ ", " ++ sqS ++ "http://localhost:*" ++ sqS ++ "],",
    "  " ++ sqS ++ "connect-src" ++ sqS ++ ": [\x22" ++ sqS ++ "self" ++ sqS ++ "\x22, " ++ sqS ++ "http://localhost:*" ++ sqS ++ ", " ++ sqS ++ "ws://localhost:*" ++ sqS ++ "],",
    "  " ++ sqS ++ "worker-src" ++ sqS ++ ": [\x22" ++ sqS ++ "self" ++ sqS ++ "\x22, " ++ sqS ++ "blob:" ++ sqS ++ "],",
    "\x7d;",
    "",
    "const buildCSPString = (policy: Record<string, string[]>): string =>",
    "  Object.entries(policy)",
    "    .map(([directive, sources]) => " ++ bqS ++ "$\x7bdirective\x7d $\x7bsources.join(" ++ sqS ++ " " ++ sqS ++ ")\x7d" ++ bqS ++ ")",
    "    .join(" ++ sqS ++ "; " ++ sqS ++ ");",
    ""
  ]

/-- SERVER_CONFIG of the VS Code extension -/
def extServerConfig : String :=
  String.intercalate nlS [
    "",
    "  server: \x7b",
    "    headers: \x7b",
    "      " ++ sqS ++ "Content-Security-Policy" ++ sqS ++ ": buildCSPString(CSP_POLICY),",
    "    \x7d,",
    "  \x7d,"
  ]

def cspPolicyCodeL : List Char := cspPolicyCode.toList
def viteConfigServerL : List Char := viteConfigServer.toList
def extPolicyTemplateL : List Char := extPolicyTemplate.toList
def extServerConfigL : List Char := extServerConfig.toList

/-- The fixed marker substring tested by `content.includes('CSP_POLICY')`. -/
def markerL : List Char := ("CSP_POLICY").toList

def headersKeyL : List Char := ("Content-Security-Policy").toList

/-! ## The patch operations on text

`insertPolicyBlockWith` is the policy-block insertion of both programs
(CLI script lines 177-191, extension lines 132-141): the insertion offset
is `match[0].length` — the LENGTH of the first regex match, not the end of
the matched span (`match.index` is never added, exactly as in the source);
when the regex does not match, the template is prepended. -/

def insertPolicyBlockWith (tmpl content : List Char) : List Char :=
  match importFirstMatch content with
  | some (_, len) => content.take len ++ nlL ++ tmpl ++ nlL ++ content.drop len
  | none => tmpl ++ nlL ++ content

def insertPolicyBlock (content : List Char) : List Char :=
  insertPolicyBlockWith cspPolicyCodeL content

/-- `text.replace(configRegex, repl)`: splice `repl` (after ECMAScript
replacement-pattern expansion; the regex has no capture groups) over the
first match; when there is no match the text is returned unchanged. -/
def replaceCfg (repl t : List Char) : List Char :=
  match spliceFirst mCfg (fun matched before _ rest => getSubst matched before rest [] repl) [] t with
  | some out => out
  | none => t

/-- The replacement string of the CLI script, line 198:
`export default defineConfig({` followed by `VITE_CONFIG_SERVER`. -/
def serverReplL : List Char := ("export default defineConfig(\x7b").toList ++ viteConfigServerL

/-- The replacement string of the extension, line 146. -/
def extServerReplL : List Char := ("export default defineConfig(\x7b").toList ++ extServerConfigL

/-- The server-headers step of the CLI script (lines 194-199). -/
def cliServerStep (t : List Char) : List Char := replaceCfg serverReplL t

/-- The server-headers step of the extension (lines 144-147). -/
def extServerStep (t : List Char) : List Char := replaceCfg extServerReplL t

/-! ## The source-append operation on text

CLI script lines 280-291 (the extension's interactive surface, lines
219-226, performs the character-for-character identical computation):
`updatedArray = originalArray.trimEnd() + ",\n    " + newSource + ","` and
`content.replace(directiveRegex, "'dir': [" + updatedArray + "]")`, where
`newSource = "'" + source.trim() + "'"`.  Note that the replacement string
embeds text captured from the input, so it passes through the ECMAScript
replacement-pattern expansion. -/

def sepIndentL : List Char := [commaC, nlC, spaceC, spaceC, spaceC, spaceC]

def mkUpdated (arr newSource : List Char) : List Char :=
  jsTrimEnd arr ++ sepIndentL ++ newSource ++ [commaC]

def mkDirRepl (dir arr newSource : List Char) : List Char :=
  sqC :: (dir ++ [sqC, colonC, spaceC, lbrackC] ++ mkUpdated arr newSource ++ [rbrackC])

def appendSourceText (content dir source : List Char) : Option (List Char) :=
  spliceFirst (matchDirectiveAt dir)
    (fun matched before arr rest =>
      getSubst matched before rest [arr] (mkDirRepl dir arr (sqC :: (jsTrim source ++ [sqC]))))
    [] content

/-! ## Invocation surfaces as traces of file-system effects

Each surface function takes the content of the located config file and the
oracles it cannot compute (whether the `fs.copyFileSync` backup succeeds;
for the extension, the `viteCsp.autoBackup` setting) and returns the
ordered list of file-system writes performed, the manual-instructions text
surfaced to the operator (if any), the final content of the target file,
and whether the run ended in the already-patched early return.  A backup
failure raises in `fs.copyFileSync`, which no surface catches, so the run
aborts there with no event recorded and the target untouched. -/

inductive FsEvent
  | backupWritten (orig : List Char)
  | targetWritten (new : List Char)
deriving DecidableEq

structure RunOut where
  events : List FsEvent
  manual : Option (List Char)
  finalContent : List Char
  already : Bool
deriving DecidableEq

def isWriteEv : FsEvent → Bool
  | FsEvent.targetWritten _ => true
  | _ => false

def isBackupEv : FsEvent → Bool
  | FsEvent.backupWritten _ => true
  | _ => false

/-- New config content computed by the CLI full patch. -/
def cliNewContent (c : List Char) : List Char := cliServerStep (insertPolicyBlock c)

/-- Manual instructions printed by the CLI full patch (lines 200-204:
`VITE_CONFIG_SERVER` is printed exactly when the defineConfig pattern is
absent from the intermediate text). -/
def cliManual (c : List Char) : Option (List Char) :=
  match findDefineCfg (insertPolicyBlock c) with
  | some _ => none
  | none => some viteConfigServerL

/-- CLI `addCSPConfiguration` (script lines 147-216): marker check, then
backup, then both insertions, then one write. -/
def cliFullPatch (content : List Char) (backupOk : Bool) : RunOut :=
  if containsSub markerL content then ⟨[], none, content, true⟩
  else if backupOk then
    ⟨[FsEvent.backupWritten content, FsEvent.targetWritten (cliNewContent content)],
      cliManual content, cliNewContent content, false⟩
  else ⟨[], none, content, false⟩

/-- CLI `addCSPSource` (script lines 218-299): marker check, empty-source
check, backup, then the directive match decides between a write and a
fatal `DirectiveNotFound` exit. -/
def cliAddSource (content dir source : List Char) (backupOk : Bool) : RunOut :=
  if containsSub markerL content then
    if jsTrim source = [] then ⟨[], none, content, false⟩
    else if backupOk then
      match appendSourceText content dir source with
      | some n => ⟨[FsEvent.backupWritten content, FsEvent.targetWritten n], none, n, false⟩
      | none => ⟨[FsEvent.backupWritten content], none, content, false⟩
    else ⟨[], none, content, false⟩
  else ⟨[], none, content, false⟩

/-- New config content computed by the extension full patch. -/
def extNewContent (c : List Char) : List Char :=
  extServerStep (insertPolicyBlockWith extPolicyTemplateL c)

/-- Extension `addCSPConfiguration` (extension lines 109-156): marker
check, backup only when the `viteCsp.autoBackup` setting is enabled, both
insertions, one write.  No manual instructions are ever surfaced (the
defineConfig test at line 145 has no else branch). -/
def extFullPatch (content : List Char) (autoBackup backupOk : Bool) : RunOut :=
  if containsSub markerL content then ⟨[], none, content, true⟩
  else if autoBackup then
    if backupOk then
      ⟨[FsEvent.backupWritten content, FsEvent.targetWritten (extNewContent content)],
        none, extNewContent content, false⟩
    else ⟨[], none, content, false⟩
  else ⟨[FsEvent.targetWritten (extNewContent content)], none, extNewContent content, false⟩

/-- Extension `addCSPSource` (extension lines 158-237): marker check, the
interactive collection of `dir` and `source`, backup when `autoBackup` is
enabled, then the directive match decides between a write and an error
message. -/
def extAddSource (content dir source : List Char) (autoBackup backupOk : Bool) : RunOut :=
  if containsSub markerL content then
    if autoBackup then
      if backupOk then
        match appendSourceText content dir source with
        | some n => ⟨[FsEvent.backupWritten content, FsEvent.targetWritten n], none, n, false⟩
        | none => ⟨[FsEvent.backupWritten content], none, content, false⟩
      else ⟨[], none, content, false⟩
    else
      match appendSourceText content dir source with
      | some n => ⟨[FsEvent.targetWritten n], none, n, false⟩
      | none => ⟨[], none, content, false⟩
  else ⟨[], none, content, false⟩

/-- Core of the extension's `addSourceWithValues` (lines 315-336), taking
the already-extracted `domain` (`url.protocol + '//' + url.hostname`, the
output of the URL parse at lines 311-312) : the directive match, then the
pre-check `originalArray.includes(newSource)` that skips the append when
the identical quoted literal is already present; `newSource = "'" + domain
+ "'"` (not trimmed on this path). -/
def aswCore (content dir domain : List Char) : Option (List Char) :=
  match findDirective dir content with
  | none => none
  | some (_, _, arr) =>
    if containsSub (sqC :: (domain ++ [sqC])) arr then none
    else
      spliceFirst (matchDirectiveAt dir)
        (fun matched before g rest =>
          getSubst matched before rest [g] (mkDirRepl dir g (sqC :: (domain ++ [sqC]))))
        [] content

/-- Extension `addSourceWithValues` (lines 288-340): marker check, backup
when `autoBackup` is enabled, then `aswCore`; both the `includes` pre-check
hit and a failed directive match end the run silently with no write. -/
def addSourceWithValues (content dir domain : List Char) (autoBackup backupOk : Bool) : RunOut :=
  if containsSub markerL content then
    if autoBackup then
      if backupOk then
        match aswCore content dir domain with
        | some n => ⟨[FsEvent.backupWritten content, FsEvent.targetWritten n], none, n, false⟩
        | none => ⟨[FsEvent.backupWritten content], none, content, false⟩
      else ⟨[], none, content, false⟩
    else
      match aswCore content dir domain with
      | some n => ⟨[FsEvent.targetWritten n], none, n, false⟩
      | none => ⟨[], none, content, false⟩
  else ⟨[], none, content, false⟩

/-- Dollar-freeness of a replacement string, as an executable check. -/
def noDolB (l : List Char) : Bool := l.all (fun c => !(c = dollarC))

/-- `r` is `s` with some prefix dropped. -/
def DropSuf (r s : List Char) : Prop := ∃ k, k ≤ s.length ∧ r = s.drop k

/-! ## Concrete inputs for counterexamples and witnesses -/

def dqS : String := "\x22"

/-- The minimal config file of the spec's scenario:
`export default defineConfig({` newline `});`. -/
def minimalS : String := "export default defineConfig(\x7b\n\x7d);"

def minimalL : List Char := minimalS.toList

def helloL : List Char := ("hello").toList

def connectL : List Char := ("connect-src").toList

def apiL : List Char := ("https://api.example.com").toList

/-- A file whose first import line is preceded by a comment line:
`// c` newline `import a from 'b';` newline `X`. -/
def c1CounterS : String := "// c\nimport a from " ++ sqS ++ "b" ++ sqS ++ ";\nX"

def c1CounterL : List Char := c1CounterS.toList

/-- A file that starts with an import line: `import x from 'a';` newline `Q`. -/
def c1WitnessS : String := "import x from " ++ sqS ++ "a" ++ sqS ++ ";\nQ"

def c1WitnessL : List Char := c1WitnessS.toList

/-- A seven-directive policy text whose `connect-src` array is `["'self'"]`. -/
def t7Line (d : String) : String :=
  "  " ++ sqS ++ d ++ sqS ++ ": [" ++ dqS ++ sqS ++ "self" ++ sqS ++ dqS ++ "],\n"

def t7S : String :=
  "const CSP_POLICY = \x7b\n" ++ t7Line ("default-src") ++ t7Line ("script-src")
    ++ t7Line ("style-src") ++ t7Line ("font-src") ++ t7Line ("img-src")
    ++ t7Line ("connect-src") ++ t7Line ("worker-src") ++ "\x7d;\n"

def t7L : List Char := t7S.toList

/-- The captured `connect-src` array content of `t7S`: `"'self'"`. -/
def selfArrL : List Char := (dqS ++ sqS ++ "self" ++ sqS ++ dqS).toList

def selfTokL : List Char := (sqS ++ "self" ++ sqS).toList

def apiTokL : List Char := (sqS ++ "https://api.example.com" ++ sqS).toList

/-- The rewritten `connect-src` span after appending the api source to an
array whose content is `"'self'"`:
`'connect-src': ["'self'",` newline four spaces `'https://api.example.com',]`. -/
def c7ReplS : String :=
  sqS ++ "connect-src" ++ sqS ++ ": [" ++ dqS ++ sqS ++ "self" ++ sqS ++ dqS
    ++ ",\n    " ++ sqS ++ "https://api.example.com" ++ sqS ++ ",]"

def c7ReplL : List Char := c7ReplS.toList

/-- An array with trailing whitespace inside the brackets:
`'connect-src': [ "x" ]`. -/
def c4TrailS : String :=
  sqS ++ "connect-src" ++ sqS ++ ": [ " ++ dqS ++ "x" ++ dqS ++ " ]"

/-- An array whose content is the replacement pattern `$&`:
`'connect-src': [$&]`. -/
def c4DollarS : String := sqS ++ "connect-src" ++ sqS ++ ": [$&]"

def ySrcL : List Char := ("y").toList

/-- What byte-for-byte preservation would predict for `c4TrailS` + `y`:
`'connect-src': [ "x" ,` newline four spaces `'y',]` (the trailing space of
the array content kept). -/
def c4TrailClaimS : String :=
  sqS ++ "connect-src" ++ sqS ++ ": [ " ++ dqS ++ "x" ++ dqS ++ " ,\n    "
    ++ sqS ++ "y" ++ sqS ++ ",]"

/-- What byte-for-byte preservation (even granting the trailing-whitespace
trim) would predict for `c4DollarS` + `y`: `'connect-src': [$&,` newline
four spaces `'y',]`. -/
def c4DollarClaimS : String :=
  sqS ++ "connect-src" ++ sqS ++ ": [$&,\n    " ++ sqS ++ "y" ++ sqS ++ ",]"

/-- The only event traces compatible with "one backup of the original
content, persisted before any target write". -/
def backupDiscipline (orig : List Char) (evs : List FsEvent) : Prop :=
  evs = [] ∨ evs = [FsEvent.backupWritten orig] ∨
    ∃ n, evs = [FsEvent.backupWritten orig, FsEvent.targetWritten n]

def markerOnlyL : List Char := ("CSP_POLICY").toList

/-- The result of applying the policy-block insertion and then the
server-headers insertion of the CLI script to the minimal config file. -/
def c5ResultL : List Char := cliServerStep (insertPolicyBlock minimalL)

/-! ## Helper lemmas -/

theorem containsSub_nil (t : List Char) : containsSub [] t = true := by
  cases t <;> simp [containsSub, isPre]

theorem isPre_append {p s : List Char} (t : List Char) (h : isPre p s = true) :
    isPre p (s ++ t) = true := by
  induction p generalizing s with
  | nil => simp [isPre]
  | cons a ps ih =>
    cases s with
    | nil => simp [isPre] at h
    | cons c cs =>
      simp only [isPre, Bool.and_eq_true, decide_eq_true_eq] at h
      simp only [List.cons_append, isPre, Bool.and_eq_true, decide_eq_true_eq]
      exact ⟨h.1, ih h.2⟩

theorem containsSub_append_left {p s : List Char} (t : List Char)
    (h : containsSub p s = true) : containsSub p (s ++ t) = true := by
  induction s with
  | nil =>
    cases p with
    | nil => exact containsSub_nil t
    | cons a ps => simp [containsSub, isPre] at h
  | cons c cs ih =>
    simp only [containsSub, Bool.or_eq_true] at h
    simp only [List.cons_append, containsSub, Bool.or_eq_true]
    rcases h with h | h
    · exact Or.inl (isPre_append t h)
    · exact Or.inr (ih h)

theorem containsSub_append_right {p : List Char} (a : List Char) {s : List Char}
    (h : containsSub p s = true) : containsSub p (a ++ s) = true := by
  induction a with
  | nil => exact h
  | cons c cs ih =>
    simp only [List.cons_append, containsSub, Bool.or_eq_true]
    exact Or.inr ih

theorem containsSub_mid {p s : List Char} (a b : List Char)
    (h : containsSub p s = true) : containsSub p (a ++ s ++ b) = true := by
  have h1 := containsSub_append_right a (containsSub_append_left b h)
  rwa [← List.append_assoc] at h1

theorem noDolB_append {a b : List Char} (ha : noDolB a = true) (hb : noDolB b = true) :
    noDolB (a ++ b) = true := by
  simp only [noDolB, List.all_append, Bool.and_eq_true]
  exact ⟨ha, hb⟩

theorem all_dropWhile {p q : Char → Bool} :
    ∀ {l : List Char}, l.all p = true → (l.dropWhile q).all p = true := by
  intro l
  induction l with
  | nil => intro h; exact h
  | cons a as ih =>
    intro h
    simp only [List.all_cons, Bool.and_eq_true] at h
    rw [List.dropWhile_cons]
    by_cases hq : q a
    · rw [if_pos hq]; exact ih h.2
    · rw [if_neg hq]
      simp only [List.all_cons, Bool.and_eq_true]
      exact h

theorem noDolB_jsTrimEnd {l : List Char} (h : noDolB l = true) :
    noDolB (jsTrimEnd l) = true := by
  unfold jsTrimEnd
  unfold noDolB at h ⊢
  rw [List.all_reverse]
  exact all_dropWhile (by rwa [List.all_reverse])

theorem noDolB_jsTrim {l : List Char} (h : noDolB l = true) :
    noDolB (jsTrim l) = true :=
  noDolB_jsTrimEnd (all_dropWhile h)

theorem getSubstAux_noDollar (matched before after : List Char) (caps : List (List Char)) :
    ∀ (n : Nat) (l : List Char), noDolB l = true →
      getSubstAux matched before after caps n l = l := by
  intro n
  induction n with
  | zero => intro l _; rfl
  | succ m ih =>
    intro l h
    cases l with
    | nil => rfl
    | cons c rest =>
      simp only [noDolB, List.all_cons, Bool.and_eq_true, Bool.not_eq_eq_eq_not,
        Bool.not_true, decide_eq_false_iff_not] at h
      simp only [getSubstAux]
      rw [if_neg h.1, ih rest h.2]

/-- When the replacement string contains no `$`, ECMAScript substitution
leaves it unchanged. -/
theorem getSubst_noDollar (matched before after : List Char) (caps : List (List Char)) :
    ∀ repl : List Char, noDolB repl = true →
      getSubst matched before after caps repl = repl := fun repl h =>
  getSubstAux_noDollar matched before after caps repl.length repl h

theorem mkDirRepl_noDollar {dir arr newSource : List Char}
    (hd : noDolB dir = true) (ha : noDolB arr = true) (hs : noDolB newSource = true) :
    noDolB (mkDirRepl dir arr newSource) = true := by
  unfold mkDirRepl mkUpdated
  have h1 : noDolB [sqC] = true := by decide
  have h2 : noDolB [sqC, colonC, spaceC, lbrackC] = true := by decide
  have h3 : noDolB sepIndentL = true := by decide
  have h4 : noDolB [commaC] = true := by decide
  have h5 : noDolB [rbrackC] = true := by decide
  have hmid := noDolB_append (noDolB_jsTrimEnd ha) (noDolB_append h3 (noDolB_append hs h4))
  have hbig := noDolB_append hd (noDolB_append h2 (noDolB_append hmid h5))
  simpa [List.append_assoc] using noDolB_append h1 hbig

/-! ## Scanner and splice lemmas

`spliceFirst` accumulates the prefix; the following lemmas prove it equal
to the take/drop description over the index returned by `scanFirst`, using
the fact that each position matcher returns a drop-suffix of its input. -/

theorem DropSuf_refl (s : List Char) : DropSuf s s := ⟨0, Nat.zero_le _, rfl⟩

theorem DropSuf_tail (c : Char) (s : List Char) : DropSuf s (c :: s) :=
  ⟨1, by simp, rfl⟩

theorem DropSuf_trans {a b c : List Char} (h1 : DropSuf a b) (h2 : DropSuf b c) :
    DropSuf a c := by
  obtain ⟨k, hk, rfl⟩ := h1
  obtain ⟨j, hj, rfl⟩ := h2
  refine ⟨k + j, ?_, ?_⟩
  · have hl := List.length_drop j c
    omega
  · rw [List.drop_drop, Nat.add_comm]

theorem stripPre_DropSuf : ∀ (p s r : List Char), stripPre p s = some r → DropSuf r s := by
  intro p
  induction p with
  | nil =>
    intro s r h
    simp only [stripPre, Option.some.injEq] at h
    subst h
    exact DropSuf_refl _
  | cons a ps ih =>
    intro s r h
    cases s with
    | nil => simp [stripPre] at h
    | cons c cs =>
      simp only [stripPre] at h
      by_cases hac : a = c
      · rw [if_pos hac] at h
        exact DropSuf_trans (ih cs r h) (DropSuf_tail c cs)
      · rw [if_neg hac] at h
        simp at h

theorem dropWhile_DropSuf (p : Char → Bool) : ∀ s : List Char, DropSuf (s.dropWhile p) s := by
  intro s
  induction s with
  | nil => exact DropSuf_refl []
  | cons c cs ih =>
    rw [List.dropWhile_cons]
    by_cases h : p c
    · rw [if_pos h]
      exact DropSuf_trans ih (DropSuf_tail c cs)
    · rw [if_neg h]
      exact DropSuf_refl _

theorem wsPlus_DropSuf {s r : List Char} (h : wsPlus s = some r) : DropSuf r s := by
  cases s with
  | nil => simp [wsPlus] at h
  | cons c cs =>
    simp only [wsPlus] at h
    by_cases hw : jsWhitespace c
    · rw [if_pos hw] at h
      simp only [Option.some.injEq] at h
      subst h
      exact dropWhile_DropSuf _ _
    · rw [if_neg hw] at h
      simp at h

theorem matchDefineCfg_DropSuf : ∀ {s r : List Char}, matchDefineCfg s = some r → DropSuf r s := by
  intro s r h
  unfold matchDefineCfg at h
  rw [Option.bind_eq_some] at h
  obtain ⟨a, h1, h⟩ := h
  rw [Option.bind_eq_some] at h
  obtain ⟨b, h2, h⟩ := h
  rw [Option.bind_eq_some] at h
  obtain ⟨c0, h3, h⟩ := h
  rw [Option.bind_eq_some] at h
  obtain ⟨d, h4, h⟩ := h
  rw [Option.bind_eq_some] at h
  obtain ⟨e, h5, h⟩ := h
  rw [Option.bind_eq_some] at h
  obtain ⟨f, h6, h7⟩ := h
  exact DropSuf_trans
    (DropSuf_trans (stripPre_DropSuf _ _ _ h7) (dropWhile_DropSuf _ f))
    (DropSuf_trans (stripPre_DropSuf _ _ _ h6)
      (DropSuf_trans (dropWhile_DropSuf _ e)
        (DropSuf_trans (stripPre_DropSuf _ _ _ h5)
          (DropSuf_trans (wsPlus_DropSuf h4)
            (DropSuf_trans (stripPre_DropSuf _ _ _ h3)
              (DropSuf_trans (wsPlus_DropSuf h2)
                (stripPre_DropSuf _ _ _ h1)))))))

theorem mCfg_DropSuf : ∀ (s : List Char) (a : Unit) (r : List Char),
    mCfg s = some (a, r) → DropSuf r s := by
  intro s a r h
  unfold mCfg at h
  rw [Option.map_eq_some'] at h
  obtain ⟨r0, hm, hr⟩ := h
  have hr2 : r0 = r := congrArg Prod.snd hr
  subst hr2
  exact matchDefineCfg_DropSuf hm

theorem matchDirectiveAt_DropSuf : ∀ (dir s : List Char) (g r : List Char),
    matchDirectiveAt dir s = some (g, r) → DropSuf r s := by
  intro dir s g r h
  unfold matchDirectiveAt at h
  rw [Option.bind_eq_some] at h
  obtain ⟨a, h1, h⟩ := h
  rw [Option.bind_eq_some] at h
  obtain ⟨b, h2, h⟩ := h
  rw [Option.map_eq_some'] at h
  obtain ⟨r0, h3, hr⟩ := h
  have hr2 : r0 = r := congrArg Prod.snd hr
  subst hr2
  exact DropSuf_trans
    (DropSuf_trans (stripPre_DropSuf _ _ _ h3) (dropWhile_DropSuf _ b))
    (DropSuf_trans (stripPre_DropSuf _ _ _ h2)
      (DropSuf_trans (dropWhile_DropSuf _ a) (stripPre_DropSuf _ _ _ h1)))

theorem scanFirst_step {α : Type} (m : List Char → Option (α × List Char))
    (c : Char) (cs : List Char) (i : Nat) :
    scanFirst m (c :: cs) i =
      match m (c :: cs) with
      | some (a, r) => some (i, (c :: cs).length - r.length, a)
      | none => scanFirst m cs (i + 1) := by
  cases hm : m (c :: cs) with
  | some ar =>
    obtain ⟨a, r⟩ := ar
    cases i <;> simp [scanFirst, hm]
  | none => cases i <;> simp [scanFirst, hm]

theorem scanFirst_shift {α : Type} (m : List Char → Option (α × List Char)) :
    ∀ (l : List Char) (i : Nat),
      scanFirst m l i = (scanFirst m l 0).map (fun x => (x.1 + i, x.2.1, x.2.2)) := by
  intro l
  induction l with
  | nil => intro i; rfl
  | cons c cs ih =>
    intro i
    rw [scanFirst_step, scanFirst_step]
    cases hm : m (c :: cs) with
    | some ar =>
      obtain ⟨a, r⟩ := ar
      simp
    | none =>
      rw [ih (i + 1), ih 1]
      cases hsc : scanFirst m cs 0 with
      | none => rfl
      | some x =>
        obtain ⟨j, len, a⟩ := x
        simp only [Option.map_some]
        refine congrArg some ?_
        refine Prod.ext ?_ rfl
        show j + (i + 1) = j + 1 + i
        omega

theorem spliceFirst_spec {α : Type} (m : List Char → Option (α × List Char))
    (build : List Char → List Char → α → List Char → List Char)
    (hm : ∀ s a r, m s = some (a, r) → DropSuf r s) :
    ∀ (l revPre : List Char),
      spliceFirst m build revPre l =
        match scanFirst m l 0 with
        | none => none
        | some (i, len, a) =>
          some ((revPre.reverse ++ l.take i)
            ++ build ((l.drop i).take len) (revPre.reverse ++ l.take i) a (l.drop (i + len))
            ++ l.drop (i + len)) := by
  intro l
  induction l with
  | nil => intro revPre; rfl
  | cons c cs ih =>
    intro revPre
    rw [scanFirst_step]
    cases hmc : m (c :: cs) with
    | some ar =>
      obtain ⟨a, r⟩ := ar
      obtain ⟨k, hk, rfl⟩ := hm _ _ _ hmc
      have hlen : (c :: cs).length - ((c :: cs).drop k).length = k := by
        rw [List.length_drop]
        omega
      show spliceFirst m build revPre (c :: cs) = _
      simp only [spliceFirst, hmc, hlen]
      simp [Nat.zero_add]
    | none =>
      show spliceFirst m build revPre (c :: cs) = _
      simp only [spliceFirst, hmc]
      rw [ih (c :: revPre)]
      rw [scanFirst_shift m cs 1]
      cases hsc : scanFirst m cs 0 with
      | none => rfl
      | some x =>
        obtain ⟨j, len, a⟩ := x
        have h3 : j + 1 + len = (j + len) + 1 := by omega
        simp only [Option.map_some, Option.map_some', h3, List.take_succ_cons,
          List.drop_succ_cons, List.reverse_cons, List.append_assoc, List.singleton_append]

/-- `appendSourceText` in index form: a pure splice over the span of the
first directive-array match. -/
theorem appendSourceText_eq (content dir source : List Char) :
    appendSourceText content dir source =
      match findDirective dir content with
      | none => none
      | some (i, len, arr) =>
        some (content.take i
          ++ getSubst ((content.drop i).take len) (content.take i) (content.drop (i + len)) [arr]
               (mkDirRepl dir arr (sqC :: (jsTrim source ++ [sqC])))
          ++ content.drop (i + len)) := by
  unfold appendSourceText findDirective
  rw [spliceFirst_spec _ _ (matchDirectiveAt_DropSuf dir) content []]
  cases hsc : scanFirst (matchDirectiveAt dir) content 0 with
  | none => rfl
  | some x =>
    obtain ⟨i, len, arr⟩ := x
    simp

/-- `replaceCfg` in index form. -/
theorem replaceCfg_eq (repl t : List Char) :
    replaceCfg repl t =
      match findDefineCfg t with
      | none => t
      | some (i, len) =>
        t.take i ++ getSubst ((t.drop i).take len) (t.take i) (t.drop (i + len)) [] repl
          ++ t.drop (i + len) := by
  unfold replaceCfg findDefineCfg
  rw [spliceFirst_spec _ _ mCfg_DropSuf t []]
  cases hsc : scanFirst mCfg t 0 with
  | none => rfl
  | some x =>
    obtain ⟨i, len, a⟩ := x
    simp

set_option maxHeartbeats 2000000 in
set_option maxRecDepth 20000 in
theorem marker_in_cspPolicyCode : containsSub markerL cspPolicyCodeL = true := by decide

set_option maxHeartbeats 1000000 in
set_option maxRecDepth 4000 in
theorem marker_in_serverRepl : containsSub markerL serverReplL = true := by decide

set_option maxRecDepth 4000 in
theorem serverRepl_noDollar : noDolB serverReplL = true := by decide

theorem marker_in_insertPolicyBlock (c : List Char) :
    containsSub markerL (insertPolicyBlock c) = true := by
  unfold insertPolicyBlock insertPolicyBlockWith
  cases h : importFirstMatch c with
  | none =>
    simpa [List.append_assoc] using
      containsSub_append_left (nlL ++ c) marker_in_cspPolicyCode
  | some il =>
    obtain ⟨i, len⟩ := il
    simpa [List.append_assoc] using
      containsSub_mid (c.take len ++ nlL) (nlL ++ c.drop len) marker_in_cspPolicyCode

theorem marker_in_cliNewContent (c : List Char) :
    containsSub markerL (cliNewContent c) = true := by
  unfold cliNewContent cliServerStep
  rw [replaceCfg_eq]
  cases h : findDefineCfg (insertPolicyBlock c) with
  | none => exact marker_in_insertPolicyBlock c
  | some il =>
    obtain ⟨i, len⟩ := il
    dsimp only
    rw [getSubst_noDollar _ _ _ _ serverReplL serverRepl_noDollar]
    exact containsSub_mid _ _ marker_in_serverRepl

/-- General form of a successful `appendSourceText`: when the captured array
content, the directive name and the source are dollar-free, the replacement
expansion is the identity and the result is a pure splice of `mkDirRepl`
over the matched span. -/
theorem appendSource_spec (t dir src : List Char) (i len : Nat) (arr : List Char)
    (hf : findDirective dir t = some (i, len, arr))
    (hd : noDolB dir = true) (ha : noDolB arr = true) (hs : noDolB src = true) :
    appendSourceText t dir src =
      some (t.take i ++ mkDirRepl dir arr (sqC :: (jsTrim src ++ [sqC]))
        ++ t.drop (i + len)) := by
  rw [appendSourceText_eq, hf]
  dsimp only
  have hq : noDolB [sqC] = true := by decide
  have hns : noDolB (sqC :: (jsTrim src ++ [sqC])) = true := by
    have h2 := noDolB_append hq (noDolB_append (noDolB_jsTrim hs) hq)
    exact h2
  rw [getSubst_noDollar _ _ _ _ _ (mkDirRepl_noDollar hd ha hns)]

/-! ## Claims -/

/-- C1 counterexample: on a file whose import line is preceded by a comment
line (`// c` newline `import a from 'b';` newline `X`), the import regex
first matches at index 5 with length 19, so there is no leading import run
at the top of the file; the claim then requires the template to be
prepended, but `insertPolicyBlock` inserts at offset `match[0].length` = 19
(between `from` and the following space, in the middle of the import line);
the result is neither the prepend nor an insertion at the end (offset
5 + 19 = 24) of the matched run. -/
theorem c1_counter :
    importFirstMatch c1CounterL = some (5, 19) ∧
    insertPolicyBlock c1CounterL ≠ cspPolicyCodeL ++ nlL ++ c1CounterL ∧
    insertPolicyBlock c1CounterL ≠
      c1CounterL.take 24 ++ nlL ++ cspPolicyCodeL ++ nlL ++ c1CounterL.drop 24 := by
  refine ⟨by decide, ?_, ?_⟩ <;> decide

/-- C1 (amended): `insertPolicyBlock` inserts the fixed policy-block
template at offset `match[0].length`, the LENGTH of the import regex's
first match: when that match starts at the beginning of the file this is
exactly "immediately after the matched leading import run" (the run is then
`t.take len`), and when the regex does not match at all the template is
prepended; when the regex first matches at a positive index the insertion
offset is still the match's length, which lies inside or before the matched
run, not after it.  In every case the output splits the original text at a
single point and preserves every byte of it before and after the inserted
template. -/
theorem c1_theorem : ∀ t : List Char,
    (importFirstMatch t = none → insertPolicyBlock t = cspPolicyCodeL ++ nlL ++ t) ∧
    (∀ i len, importFirstMatch t = some (i, len) →
      insertPolicyBlock t =
        t.take len ++ nlL ++ cspPolicyCodeL ++ nlL ++ t.drop len ∧
      t.take len ++ t.drop len = t) := by
  intro t
  constructor
  · intro h
    unfold insertPolicyBlock insertPolicyBlockWith
    rw [h]
  · intro i len h
    unfold insertPolicyBlock insertPolicyBlockWith
    rw [h]
    exact ⟨rfl, List.take_append_drop len t⟩

/-- C1 witness: on `import x from 'a';` newline `Q` the regex matches at
index 0 with length 19 and the template is inserted right after the run. -/
theorem c1_witness :
    importFirstMatch c1WitnessL = some (0, 19) ∧
    insertPolicyBlock c1WitnessL =
      c1WitnessL.take 19 ++ nlL ++ cspPolicyCodeL ++ nlL ++ c1WitnessL.drop 19 :=
  ⟨by decide, ((c1_theorem c1WitnessL).2 0 19 (by decide)).1⟩

/-- C2: on a config file that does not yet contain the `CSP_POLICY` marker,
the first CLI full-patch run backs the file up and writes the patched
content; that content contains the marker, so a second run on it reports
already-patched, performs no file-system write at all, and leaves the file
content byte-for-byte unchanged — the policy block is never inserted a
second time. -/
theorem c2_theorem : ∀ c : List Char, containsSub markerL c = false →
    (cliFullPatch c true).already = false ∧
    (cliFullPatch c true).events =
      [FsEvent.backupWritten c, FsEvent.targetWritten (cliFullPatch c true).finalContent] ∧
    containsSub markerL (cliFullPatch c true).finalContent = true ∧
    (cliFullPatch ((cliFullPatch c true).finalContent) true).already = true ∧
    (cliFullPatch ((cliFullPatch c true).finalContent) true).events = [] ∧
    (cliFullPatch ((cliFullPatch c true).finalContent) true).finalContent =
      (cliFullPatch c true).finalContent := by
  intro c h
  have hm := marker_in_cliNewContent c
  have e1 : cliFullPatch c true =
      ⟨[FsEvent.backupWritten c, FsEvent.targetWritten (cliNewContent c)],
        cliManual c, cliNewContent c, false⟩ := by
    unfold cliFullPatch
    rw [h]
    simp
  have e2 : cliFullPatch (cliNewContent c) true = ⟨[], none, cliNewContent c, true⟩ := by
    unfold cliFullPatch
    rw [hm]
    simp
  rw [e1]
  refine ⟨rfl, rfl, hm, ?_, ?_, ?_⟩
  · show (cliFullPatch (cliNewContent c) true).already = true
    rw [e2]
  · show (cliFullPatch (cliNewContent c) true).events = []
    rw [e2]
  · show (cliFullPatch (cliNewContent c) true).finalContent = cliNewContent c
    rw [e2]

/-- C2 witness: the minimal config file contains no marker; after one full
patch, a second full patch reports already-patched. -/
theorem c2_witness :
    containsSub markerL minimalL = false ∧
    (cliFullPatch ((cliFullPatch minimalL true).finalContent) true).already = true ∧
    (cliFullPatch ((cliFullPatch minimalL true).finalContent) true).finalContent =
      (cliFullPatch minimalL true).finalContent := by
  refine ⟨by decide, ?_, ?_⟩
  · exact (c2_theorem minimalL (by decide)).2.2.2.1
  · exact (c2_theorem minimalL (by decide)).2.2.2.2.2

/-- C3 counterexample: the extension surface with the `viteCsp.autoBackup`
setting disabled is a mutating invocation that overwrites the target file
with zero backup events — run on the minimal (unpatched) config it records
exactly one target write and no backup. -/
theorem c3_counter :
    (extFullPatch minimalL false true).events.countP (fun e => isBackupEv e) = 0 ∧
    (extFullPatch minimalL false true).events.countP (fun e => isWriteEv e) = 1 := by
  have h : containsSub markerL minimalL = false := by decide
  have e1 : extFullPatch minimalL false true =
      ⟨[FsEvent.targetWritten (extNewContent minimalL)], none, extNewContent minimalL, false⟩ := by
    unfold extFullPatch
    rw [h]
    simp
  rw [e1]
  constructor <;> simp [List.countP_cons, isBackupEv, isWriteEv]

/-- C3 (amended): on the CLI surface (full patch and source append) a
backup of the original content is persisted exactly once, before the target
file is written, and a backup failure aborts the run with the original file
unmodified; the same holds on the extension surface when the
`viteCsp.autoBackup` setting is enabled, but when it is disabled the
extension overwrites the target file without persisting any backup. -/
theorem c3_theorem : ∀ (c dir src : List Char) (bOk : Bool),
    ((cliFullPatch c false).events.countP (fun e => isWriteEv e) = 0 ∧
      (cliFullPatch c false).finalContent = c) ∧
    backupDiscipline c (cliFullPatch c bOk).events ∧
    backupDiscipline c (cliAddSource c dir src bOk).events ∧
    (cliAddSource c dir src false).finalContent = c ∧
    backupDiscipline c (extFullPatch c true bOk).events ∧
    (extFullPatch c true false).finalContent = c ∧
    backupDiscipline c (extAddSource c dir src true bOk).events ∧
    (extAddSource c dir src true false).finalContent = c ∧
    (containsSub markerL c = false →
      (extFullPatch c false bOk).events = [FsEvent.targetWritten (extNewContent c)]) := by
  intro c dir src bOk
  by_cases hm : containsSub markerL c
  · refine ⟨?_, ?_, ?_, ?_, ?_, ?_, ?_, ?_, ?_⟩
    · unfold cliFullPatch
      rw [if_pos hm]
      exact ⟨rfl, rfl⟩
    · unfold cliFullPatch
      rw [if_pos hm]
      exact Or.inl rfl
    · unfold cliAddSource
      rw [if_pos hm]
      by_cases he : jsTrim src = []
      · rw [if_pos he]; exact Or.inl rfl
      · rw [if_neg he]
        cases bOk
        · exact Or.inl rfl
        · cases happ : appendSourceText c dir src
          · exact Or.inr (Or.inl rfl)
          · exact Or.inr (Or.inr ⟨_, rfl⟩)
    · unfold cliAddSource
      rw [if_pos hm]
      by_cases he : jsTrim src = []
      · rw [if_pos he]
      · rw [if_neg he]
        rfl
    · unfold extFullPatch
      rw [if_pos hm]
      exact Or.inl rfl
    · unfold extFullPatch
      rw [if_pos hm]
    · unfold extAddSource
      rw [if_pos hm]
      cases bOk
      · exact Or.inl rfl
      · cases happ : appendSourceText c dir src
        · exact Or.inr (Or.inl rfl)
        · exact Or.inr (Or.inr ⟨_, rfl⟩)
    · unfold extAddSource
      rw [if_pos hm]
      rfl
    · intro hfalse
      rw [hm] at hfalse
      exact absurd hfalse (by decide)
  · have hmf : containsSub markerL c = false := by
      cases hval : containsSub markerL c
      · rfl
      · exact absurd hval hm
    refine ⟨?_, ?_, ?_, ?_, ?_, ?_, ?_, ?_, ?_⟩
    · unfold cliFullPatch
      rw [if_neg hm]
      exact ⟨rfl, rfl⟩
    · unfold cliFullPatch
      rw [if_neg hm]
      cases bOk
      · exact Or.inl rfl
      · exact Or.inr (Or.inr ⟨_, rfl⟩)
    · unfold cliAddSource
      rw [if_neg hm]
      exact Or.inl rfl
    · unfold cliAddSource
      rw [if_neg hm]
    · unfold extFullPatch
      rw [if_neg hm]
      cases bOk
      · exact Or.inl rfl
      · exact Or.inr (Or.inr ⟨_, rfl⟩)
    · unfold extFullPatch
      rw [if_neg hm]
      rfl
    · unfold extAddSource
      rw [if_neg hm]
      exact Or.inl rfl
    · unfold extAddSource
      rw [if_neg hm]
    · intro _
      unfold extFullPatch
      rw [if_neg hm]
      rfl

/-- C3 witness: on the minimal config, the CLI full patch obeys the backup
discipline, and the extension with autoBackup disabled writes the target
with no backup event. -/
theorem c3_witness :
    backupDiscipline minimalL (cliFullPatch minimalL true).events ∧
    (extFullPatch minimalL false true).events =
      [FsEvent.targetWritten (extNewContent minimalL)] :=
  ⟨(c3_theorem minimalL [] [] true).2.1,
   (c3_theorem minimalL [] [] true).2.2.2.2.2.2.2.2 (by decide)⟩

/-- C4 counterexample: two refutations of byte-for-byte preservation of the
array content.  First, on `'connect-src': [ "x" ]` (array content ` "x" `
with a trailing space) appending `y` does not yield the content preserved
verbatim followed by the separator and `'y'` — the code applies `trimEnd`
to the captured content first.  Second, on `'connect-src': [$&]` even the
trimEnd-adjusted prediction fails, because the captured content re-enters
`String.replace` as part of the replacement string, where `$&` expands to
the whole matched span. -/
theorem c4_counter :
    appendSourceText c4TrailS.toList connectL ySrcL ≠ some c4TrailClaimS.toList ∧
    appendSourceText c4DollarS.toList connectL ySrcL ≠ some c4DollarClaimS.toList := by
  constructor <;> decide

/-- C4 (amended): when the text contains the directive's array literal and
neither the captured array content nor the source contains a dollar sign,
`appendSourceText` rewrites exactly the matched span, replacing it by the
directive key, `: [`, the existing content with its trailing whitespace
removed (`trimEnd`), the separator `,` + newline + four spaces, the trimmed
source in single quotes, a trailing comma, and `]`; every byte outside the
matched span, and every byte of the existing content except the trailing
whitespace, is preserved. -/
theorem c4_theorem : ∀ (t dir src : List Char) (i len : Nat) (arr : List Char),
    findDirective dir t = some (i, len, arr) →
    noDolB dir = true → noDolB arr = true → noDolB src = true →
    appendSourceText t dir src =
      some (t.take i ++ (sqC :: (dir ++ [sqC, colonC, spaceC, lbrackC]
        ++ (jsTrimEnd arr ++ sepIndentL ++ (sqC :: (jsTrim src ++ [sqC])) ++ [commaC])
        ++ [rbrackC])) ++ t.drop (i + len)) := by
  intro t dir src i len arr hf hd ha hs
  exact appendSource_spec t dir src i len arr hf hd ha hs

/-- C4 witness: appending the api source to the seven-directive text. -/
theorem c4_witness :
    findDirective connectL t7L = some (158, 25, selfArrL) ∧
    appendSourceText t7L connectL apiL =
      some (t7L.take 158 ++ (sqC :: (connectL ++ [sqC, colonC, spaceC, lbrackC]
        ++ (jsTrimEnd selfArrL ++ sepIndentL ++ (sqC :: (jsTrim apiL ++ [sqC])) ++ [commaC])
        ++ [rbrackC])) ++ t7L.drop (158 + 25)) :=
  ⟨by decide,
   c4_theorem t7L connectL apiL 158 25 selfArrL (by decide) (by decide) (by decide) (by decide)⟩

/-- C5 counterexample: on the minimal config file the composite result does
not contain exactly one occurrence of the marker token `CSP_POLICY`. -/
theorem c5_counter : countOcc markerL c5ResultL ≠ 1 := by decide

/-- C5 (amended): applying `insertPolicyBlock` and then the server-headers
insertion to the minimal config file yields text containing exactly three
occurrences of the marker token `CSP_POLICY` (two inside the inserted
policy-block template — its declaration line and a comment — and one inside
the inserted server-headers block) and exactly one occurrence of the
`Content-Security-Policy` headers key. -/
theorem c5_theorem :
    countOcc markerL c5ResultL = 3 ∧ countOcc headersKeyL c5ResultL = 1 := by
  constructor <;> decide

/-- C6: when the directive's array pattern is absent from the text, the
append is `DirectiveNotFound`: the text operation returns nothing, and the
CLI `--add-source` run leaves the target file byte-for-byte unchanged with
no target write in its trace. -/
theorem c6_theorem : ∀ (t dir src : List Char),
    findDirective dir t = none →
    appendSourceText t dir src = none ∧
    (cliAddSource t dir src true).finalContent = t ∧
    (cliAddSource t dir src true).events.countP (fun e => isWriteEv e) = 0 := by
  intro t dir src hf
  have happ : appendSourceText t dir src = none := by
    rw [appendSourceText_eq, hf]
  refine ⟨happ, ?_, ?_⟩
  · unfold cliAddSource
    by_cases hm : containsSub markerL t
    · rw [if_pos hm]
      by_cases he : jsTrim src = []
      · rw [if_pos he]
      · rw [if_neg he, happ]
        rfl
    · rw [if_neg hm]
  · unfold cliAddSource
    by_cases hm : containsSub markerL t
    · rw [if_pos hm]
      by_cases he : jsTrim src = []
      · rw [if_pos he]
        rfl
      · rw [if_neg he, happ]
        rfl
    · rw [if_neg hm]
      rfl

/-- C6 witness: a file consisting only of the marker has no `connect-src`
array, and the append fails with the text unchanged. -/
theorem c6_witness :
    findDirective connectL markerOnlyL = none ∧
    appendSourceText markerOnlyL connectL apiL = none :=
  ⟨by decide, (c6_theorem markerOnlyL connectL apiL (by decide)).1⟩

/-- C7: on any text whose first `connect-src` array match captures exactly
`"'self'"`, appending `https://api.example.com` rewrites only the matched
span (everything before index `i` and after index `i + len` is untouched,
so no other directive's array is mutated), and the rewritten span contains
the token `'self'` exactly once at offset 17 and the token
`'https://api.example.com'` exactly once at offset 30 — both present, with
`'self'` first. -/
theorem c7_theorem : ∀ (t : List Char) (i len : Nat),
    findDirective connectL t = some (i, len, selfArrL) →
    appendSourceText t connectL apiL = some (t.take i ++ c7ReplL ++ t.drop (i + len)) ∧
    idxOf selfTokL c7ReplL = some 17 ∧
    idxOf apiTokL c7ReplL = some 30 ∧
    countOcc selfTokL c7ReplL = 1 ∧
    countOcc apiTokL c7ReplL = 1 := by
  intro t i len hf
  refine ⟨?_, by decide, by decide, by decide, by decide⟩
  have hspec := appendSource_spec t connectL apiL i len selfArrL hf
    (by decide) (by decide) (by decide)
  rw [hspec]
  have hrepl : mkDirRepl connectL selfArrL (sqC :: (jsTrim apiL ++ [sqC])) = c7ReplL := by
    decide
  rw [hrepl]

/-- C7 witness: the seven-directive text instantiates the hypothesis. -/
theorem c7_witness :
    findDirective connectL t7L = some (158, 25, selfArrL) ∧
    appendSourceText t7L connectL apiL =
      some (t7L.take 158 ++ c7ReplL ++ t7L.drop (158 + 25)) :=
  ⟨by decide, (c7_theorem t7L 158 25 (by decide)).1⟩

/-- C8 counterexample: run on a config (`hello`) in which the defineConfig
pattern does not occur — also not after the policy-block insertion — the
extension surface still performs the patch write but surfaces nothing: no
manual-instructions text is produced (the extension's defineConfig test has
no else branch), refuting "the caller surfaces the fixed headers object
literal" for that caller. -/
theorem c8_counter :
    findDefineCfg (insertPolicyBlockWith extPolicyTemplateL helloL) = none ∧
    (extFullPatch helloL true true).manual = none ∧
    (extFullPatch helloL true true).events.countP (fun e => isWriteEv e) = 1 := by
  have h : containsSub markerL helloL = false := by decide
  have e1 : extFullPatch helloL true true =
      ⟨[FsEvent.backupWritten helloL, FsEvent.targetWritten (extNewContent helloL)],
        none, extNewContent helloL, false⟩ := by
    unfold extFullPatch
    rw [h]
    simp
  refine ⟨by decide, ?_, ?_⟩ <;> (rw [e1]; try rfl)

/-- C8 (amended): when the defineConfig pattern does not occur, the
server-headers step is a no-op on the text (not an error abort) on both
surfaces; the CLI caller then surfaces the fixed `VITE_CONFIG_SERVER`
object literal as manual instructions and still writes the
policy-block-only text, while the extension caller never surfaces any
manual instructions. -/
theorem c8_theorem : ∀ (t c : List Char) (aB bOk : Bool),
    (findDefineCfg t = none → cliServerStep t = t ∧ extServerStep t = t) ∧
    (containsSub markerL c = false → findDefineCfg (insertPolicyBlock c) = none →
      (cliFullPatch c true).manual = some viteConfigServerL ∧
      (cliFullPatch c true).finalContent = insertPolicyBlock c) ∧
    (extFullPatch c aB bOk).manual = none := by
  intro t c aB bOk
  refine ⟨?_, ?_, ?_⟩
  · intro h
    constructor
    · unfold cliServerStep
      rw [replaceCfg_eq, h]
    · unfold extServerStep
      rw [replaceCfg_eq, h]
  · intro hm hn
    have e1 : cliFullPatch c true =
        ⟨[FsEvent.backupWritten c, FsEvent.targetWritten (cliNewContent c)],
          cliManual c, cliNewContent c, false⟩ := by
      unfold cliFullPatch
      rw [hm]
      simp
    rw [e1]
    constructor
    · show cliManual c = some viteConfigServerL
      unfold cliManual
      rw [hn]
    · show cliNewContent c = insertPolicyBlock c
      unfold cliNewContent cliServerStep
      rw [replaceCfg_eq, hn]
  · unfold extFullPatch
    by_cases hmm : containsSub markerL c
    · rw [if_pos hmm]
    · rw [if_neg hmm]
      cases aB
      · rfl
      · cases bOk <;> rfl

/-- C8 witness: on `hello` the defineConfig pattern is absent; the CLI run
surfaces the `VITE_CONFIG_SERVER` literal, and the text-level server step
is the identity. -/
theorem c8_witness :
    cliServerStep helloL = helloL ∧
    (cliFullPatch helloL true).manual = some viteConfigServerL :=
  ⟨((c8_theorem helloL helloL true true).1 (by decide)).1,
   ((c8_theorem helloL helloL true true).2.1 (by decide) (by decide)).1⟩

/-- C9: the core append primitive is unconditional — applying it twice with
the same directive and source to the seven-directive text yields a text in
which the quoted source token occurs exactly twice — while the extension's
DevTools-error path (`addSourceWithValues`) pre-checks the captured array
content for the identical quoted literal and, when present, performs no
target write and leaves the content unchanged. -/
theorem c9_theorem :
    ((appendSourceText t7L connectL apiL).bind
      (fun r => appendSourceText r connectL apiL)).map (fun r => countOcc apiTokL r)
      = some 2 ∧
    ∀ (content dir domain : List Char) (aB bOk : Bool) (i len : Nat) (arr : List Char),
      findDirective dir content = some (i, len, arr) →
      containsSub (sqC :: (domain ++ [sqC])) arr = true →
      (addSourceWithValues content dir domain aB bOk).events.countP
        (fun e => isWriteEv e) = 0 ∧
      (addSourceWithValues content dir domain aB bOk).finalContent = content := by
  constructor
  · decide
  · intro content dir domain aB bOk i len arr hf hc
    have hcore : aswCore content dir domain = none := by
      unfold aswCore
      rw [hf]
      dsimp only
      rw [if_pos hc]
    unfold addSourceWithValues
    by_cases hm : containsSub markerL content
    · rw [if_pos hm]
      cases aB
      · rw [hcore]
        exact ⟨rfl, rfl⟩
      · cases bOk
        · exact ⟨rfl, rfl⟩
        · rw [hcore]
          exact ⟨rfl, rfl⟩
    · rw [if_neg hm]
      exact ⟨rfl, rfl⟩

/-- C9 witness: `'self'` is already in the `connect-src` array of the
seven-directive text, so the extension's pre-checked path does not write. -/
theorem c9_witness :
    (addSourceWithValues t7L connectL (("self").toList) true true).events.countP
      (fun e => isWriteEv e) = 0 ∧
    (addSourceWithValues t7L connectL (("self").toList) true true).finalContent = t7L :=
  c9_theorem.2 t7L connectL (("self").toList) true true 158 25 selfArrL
    (by decide) (by decide)

/-- C10: in the CLI `--add-source` mode the backup is created before the
directive-existence check, so a run that fails with `DirectiveNotFound`
(marker present, non-blank source, directive array absent) has already
persisted exactly one new backup of the file even though the target file is
left unmodified. -/
theorem c10_theorem : ∀ (t dir src : List Char),
    containsSub markerL t = true → jsTrim src ≠ [] → findDirective dir t = none →
    (cliAddSource t dir src true).events = [FsEvent.backupWritten t] ∧
    (cliAddSource t dir src true).finalContent = t := by
  intro t dir src hm he hf
  have happ : appendSourceText t dir src = none := by
    rw [appendSourceText_eq, hf]
  unfold cliAddSource
  rw [if_pos hm, if_neg he, happ]
  exact ⟨rfl, rfl⟩

/-- C10 witness: a file consisting only of the marker, with the
`connect-src` directive requested. -/
theorem c10_witness :
    (cliAddSource markerOnlyL connectL apiL true).events =
      [FsEvent.backupWritten markerOnlyL] ∧
    (cliAddSource markerOnlyL connectL apiL true).finalContent = markerOnlyL :=
  c10_theorem markerOnlyL connectL apiL (by decide) (by decide) (by decide)

end CspVite

